import Mathlib

/-!
Verification of the SiteManager inventory analysis engine
(`data_processor.py`, class `InventoryAnalyzer`).

Modelling conventions (shallow embedding):

* A pandas cell that may be missing (NaN/NaT) is an `Option`; `none` is the
  missing marker.  Python floats are modelled as exact rationals (`ℚ`);
  `round(x, 2)` is modelled as round-half-to-even on the scaled rational,
  matching Python's bankers rounding on exactly representable values.
* Dates are modelled at day granularity as integers (`ℤ`); `pd.to_datetime`
  with `errors='coerce'` has already been applied to the raw input, so a raw
  posting date is `Option ℤ` (`none` = NaT).  `pd.Timestamp.min`, the initial
  `last_active` accumulator value in `process_data`, is modelled as `none`
  (no genuine posting date compares below it, and the final rendering turns
  it into the `"N/A"` sentinel).  The `strftime('%Y-%m-%d')` /
  `pd.to_datetime` round trip performed by `get_inactive_stock` is the
  identity at day granularity, so positions simply keep `Option ℤ`.
* `__init__` casts the `Material`, `Plant` and `Storage Location` columns
  with `astype(str)`; on a missing cell `astype(str)` produces the string
  `"nan"`.  The required columns of the source table (spec section 6) are
  assumed present, as the spec makes their absence a fatal load error.
* `pd.DataFrame([])` (the positions table built from an empty ledger) has no
  columns, so any column access on it raises `KeyError`.  Queries that
  perform such an access are therefore `Except String` valued and return
  `.error` exactly when the positions table is empty; queries whose source
  code never touches a column of the empty frame stay total.
* `pd.cut` raises `ValueError` when its bin edges are not strictly
  increasing; `get_shortage_items` does not catch that error, while
  `get_abundant_items` wraps its `pd.cut` in `try/except` and falls back to
  a direct comparison rule.
* Python dicts preserve insertion order, so the aggregation in
  `process_data` is modelled as an association list in first-occurrence
  order of the 4-tuple keys.  `sorted(...)` in Python is stable; the sorts
  are modelled with `List.insertionSort`, which is stable for the
  reflexive-on-ties relations used here.
* `self.std_qty` is computed by `_calculate_statistics` but never read by
  any query operation, so it is not carried in the analyzer state model.
-/

attribute [local semireducible] Rat.add Rat.mul Rat.inv Rat.sub Rat.ofScientific

deriving instance DecidableEq for Except

/-- Raw ledger row as loaded by `pd.read_excel`, before the `astype(str)`
cast of `__init__`: each cell that can be missing is an `Option`. -/
structure RawRow where
  plant : Option String
  storageLocation : Option String
  material : Option String
  materialDescription : Option String
  quantity : Option ℚ
  amount : Option ℚ
  postingDate : Option ℤ
  unitOfEntry : Option String
deriving DecidableEq

/-- String rendering of a possibly missing cell: `astype(str)` / `str(...)`
turn the missing marker (NaN) into the literal string `"nan"`. -/
def strOfCell : Option String → String
  | none => "nan"
  | some s => s

/-- Ledger row after `__init__` has run `astype(str)` over the `Material`,
`Plant` and `Storage Location` columns.  The three cast columns always hold
`some` string afterwards; the other columns are untouched. -/
structure Row where
  plant : Option String
  storageLocation : Option String
  material : Option String
  materialDescription : Option String
  quantity : Option ℚ
  amount : Option ℚ
  postingDate : Option ℤ
  unitOfEntry : Option String
deriving DecidableEq

/-- The column normalisation of `__init__` (lines 10-13 of
`data_processor.py`): `self.df[col] = self.df[col].astype(str)` for
`Material`, `Plant`, `Storage Location`. -/
def loadRow (r : RawRow) : Row :=
  { plant := some (strOfCell r.plant)
    storageLocation := some (strOfCell r.storageLocation)
    material := some (strOfCell r.material)
    materialDescription := r.materialDescription
    quantity := r.quantity
    amount := r.amount
    postingDate := r.postingDate
    unitOfEntry := r.unitOfEntry }

/-- Site of a row: `str(row['Plant']) if pd.notna(row['Plant']) else 'Unknown'`. -/
def siteOf (r : Row) : String :=
  match r.plant with
  | some v => v
  | none => "Unknown"

/-- Storage location of a row:
`str(row['Storage Location']) if pd.notna(...) else 'N/A'`. -/
def slocOf (r : Row) : String :=
  match r.storageLocation with
  | some v => v
  | none => "N/A"

/-- Material of a row: `str(row['Material'])` (unconditional). -/
def matOf (r : Row) : String := strOfCell r.material

/-- Material description of a row: `str(row['Material Description'])`. -/
def descOf (r : Row) : String := strOfCell r.materialDescription

/-- Quantity of a row: `float(row['Quantity']) if pd.notna(...) else 0`. -/
def qtyOf (r : Row) : ℚ := r.quantity.getD 0

/-- Amount of a row: `float(row['Amt.in Loc.Cur.']) if pd.notna(...) else 0`. -/
def amtOf (r : Row) : ℚ := r.amount.getD 0

/-- Aggregation key of `process_data`:
`(site, storage_loc, material, material_desc)`. -/
abbrev Key := String × String × String × String

/-- Aggregation key of a row. -/
def rowKey (r : Row) : Key := (siteOf r, slocOf r, matOf r, descOf r)

/-- Accumulator of the `process_data` aggregation: running quantity sum,
running value sum, and maximal non-null posting date seen so far
(`none` models the `pd.Timestamp.min` initial value). -/
structure InvAcc where
  qty : ℚ
  value : ℚ
  lastActive : Option ℤ
deriving DecidableEq

/-- Initial accumulator of the `defaultdict` in `process_data`. -/
def invAcc0 : InvAcc := ⟨0, 0, none⟩

/-- One iteration of the `process_data` row loop for an accumulator:
`inventory[key]['qty'] += quantity`, `inventory[key]['value'] += value`,
and the `last_active` update guarded by `pd.notna(posting_date)`. -/
def updAcc (acc : InvAcc) (r : Row) : InvAcc :=
  { qty := acc.qty + qtyOf r
    value := acc.value + amtOf r
    lastActive :=
      match r.postingDate, acc.lastActive with
      | none, la => la
      | some d, none => some d
      | some d, some la => if la < d then some d else some la }

/-- Update-or-append on the association list that models the insertion
ordered `defaultdict` of `process_data`. -/
def updateGo : List (Key × InvAcc) → Key → Row → List (Key × InvAcc)
  | [], k, r => [(k, updAcc invAcc0 r)]
  | (k0, a) :: t, k, r =>
      if k0 = k then (k0, updAcc a r) :: t else (k0, a) :: updateGo t k r

/-- One row of the `process_data` loop applied to the whole accumulator map. -/
def stepInv (inv : List (Key × InvAcc)) (r : Row) : List (Key × InvAcc) :=
  updateGo inv (rowKey r) r

/-- The full aggregation loop of `process_data` over the normalised ledger. -/
def buildInv (df : List Row) : List (Key × InvAcc) :=
  df.foldl stepInv []

/-- An aggregated Inventory Position record, one entry of
`self.inventory_df`.  `lastActive = none` renders as the `"N/A"` sentinel. -/
structure Position where
  site : String
  storageLocation : String
  material : String
  materialDescription : String
  currentQuantity : ℚ
  totalValue : ℚ
  lastActive : Option ℤ
  unit : String
deriving DecidableEq

/-- The `_get_unit` lookup: first raw row whose (cast) `Material` equals the
given material string, reading `Unit of Entry` with default `"EA"`. -/
def getUnit (df : List Row) (material : String) : String :=
  match df.find? (fun r => matOf r == material) with
  | some r =>
      match r.unitOfEntry with
      | some u => u
      | none => "EA"
  | none => "EA"

/-- Conversion of one aggregation entry into an Inventory Position record
(the `inventory_list.append({...})` block of `process_data`). -/
def mkPosition (df : List Row) (k : Key) (a : InvAcc) : Position :=
  { site := k.1
    storageLocation := k.2.1
    material := k.2.2.1
    materialDescription := k.2.2.2
    currentQuantity := a.qty
    totalValue := a.value
    lastActive := a.lastActive
    unit := getUnit df k.2.2.1 }

/-- The positions table `self.inventory_df` built by `process_data`. -/
def processData (df : List Row) : List Position :=
  (buildInv df).map (fun ka => mkPosition df ka.1 ka.2)

/-- Median of a list of rationals following `pandas.Series.median`: sort,
middle element for odd length, mean of the two middle elements for even
length. -/
def medianList (l : List ℚ) : ℚ :=
  let s := List.insertionSort (· ≤ ·) l
  let n := s.length
  if n = 0 then 0
  else if n % 2 = 1 then s.getD (n / 2) 0
  else (s.getD (n / 2 - 1) 0 + s.getD (n / 2) 0) / 2

/-- Mean of a list of rationals (`pandas.Series.mean`). -/
def meanList (l : List ℚ) : ℚ := l.sum / (l.length : ℚ)

/-- The `_calculate_statistics` step: on an empty positions table the
median and mean are set to literal zero, otherwise they are taken over the
absolute current quantities.  (`self.std_qty` is also set there but never
read by any query, so it is not part of the analyzer model.) -/
def calculateStatistics (inv : List Position) : ℚ × ℚ :=
  if inv.length = 0 then (0, 0)
  else
    let qs := inv.map (fun p => |p.currentQuantity|)
    (medianList qs, meanList qs)

/-- The in-memory state of an `InventoryAnalyzer` after `__init__`:
normalised ledger, aggregated positions table, and threshold statistics. -/
structure Analyzer where
  df : List Row
  inventory : List Position
  medianQty : ℚ
  meanQty : ℚ
deriving DecidableEq

/-- Construction of the analyzer from the raw ledger (`__init__` followed
by `process_data` and `_calculate_statistics`). -/
def build (raw : List RawRow) : Analyzer :=
  let df := raw.map loadRow
  let inv := processData df
  let st := calculateStatistics inv
  { df := df, inventory := inv, medianQty := st.1, meanQty := st.2 }

/-- Round-half-to-even of a rational to an integer, the idealisation of
Python's `round` on exactly representable values. -/
def rhe (x : ℚ) : ℤ :=
  if x - ⌊x⌋ < 1/2 then ⌊x⌋
  else if (1:ℚ)/2 < x - ⌊x⌋ then ⌊x⌋ + 1
  else if 2 ∣ ⌊x⌋ then ⌊x⌋ else ⌊x⌋ + 1

/-- Python's `round(x, 2)`. -/
def round2 (x : ℚ) : ℚ := (rhe (x * 100) : ℚ) / 100

/-- The `pandas.Series.quantile` computation with the default linear
interpolation between order statistics. -/
def quantileList (l : List ℚ) (q : ℚ) : ℚ :=
  let s := List.insertionSort (· ≤ ·) l
  let n := s.length
  let h : ℚ := q * ((n : ℚ) - 1)
  let i : ℕ := (⌊h⌋).toNat
  let lo := s.getD i 0
  let hi := s.getD (i + 1) lo
  lo + (h - (i : ℚ)) * (hi - lo)

/-- Result list of a query that may raise: an `.error` has no records. -/
def okList : Except String (List α) → List α
  | .ok l => l
  | .error _ => []

/-- Truth value of a query having completed without raising. -/
def isOkE : Except String (List α) → Bool
  | .ok _ => true
  | .error _ => false

/-- KeyError raised by a column access on the zero-column positions table. -/
def keyErrMsg : String := "KeyError raised by column access on empty frame"

/-- ValueError raised by `pd.cut` when bin edges are not strictly increasing. -/
def binsErrMsg : String := "ValueError: bins must increase monotonically"

/-- Ascending order on positions by current quantity
(`sort_values('Current Quantity')`). -/
def qtyAsc (p q : Position) : Prop := p.currentQuantity ≤ q.currentQuantity

instance : DecidableRel qtyAsc := fun p q =>
  inferInstanceAs (Decidable (p.currentQuantity ≤ q.currentQuantity))

instance : IsTotal Position qtyAsc := ⟨fun _ _ => le_total _ _⟩

instance : IsTrans Position qtyAsc := ⟨fun _ _ _ h h2 => le_trans h h2⟩

/-- Descending order on positions by current quantity
(`sort_values('Current Quantity', ascending=False)`). -/
def qtyDesc (p q : Position) : Prop := q.currentQuantity ≤ p.currentQuantity

instance : DecidableRel qtyDesc := fun p q =>
  inferInstanceAs (Decidable (q.currentQuantity ≤ p.currentQuantity))

instance : IsTotal Position qtyDesc := ⟨fun _ _ => (le_total _ _).symm⟩

instance : IsTrans Position qtyDesc := ⟨fun _ _ _ h h2 => le_trans h2 h⟩

/-- Severity bucket assigned by the `pd.cut` of `get_shortage_items` with
bins `[-inf, -mean, -median, 0]` and labels
`['Critical', 'High', 'Moderate']` (right-closed intervals), followed by
`fillna('High')` for values outside the bins. -/
def shortageLevel (mean median q : ℚ) : String :=
  if q ≤ -mean then "Critical"
  else if q ≤ -median then "High"
  else if q ≤ 0 then "Moderate"
  else "High"

/-- A shortage record: the position together with its `Shortage Level`. -/
structure ShortageItem where
  pos : Position
  level : String
deriving DecidableEq

/-- The `get_shortage_items` query.  On an empty positions table the column
access raises `KeyError`.  With `threshold_percentile=None` all negative
positions are selected, otherwise additionally those below the percentile
of the full quantity distribution.  The selection is sorted ascending by
quantity.  When shortages exist, `pd.cut` with bins
`[-inf, -self.mean_qty, -self.median_qty, 0]` labels them; those bins are
strictly increasing exactly when `-mean < -median < 0`, and otherwise the
uncaught `pd.cut` call raises `ValueError`. -/
def getShortageItems (a : Analyzer) (tp : Option ℚ) :
    Except String (List ShortageItem) :=
  if a.inventory.isEmpty then .error keyErrMsg
  else
    let base :=
      match tp with
      | none => a.inventory.filter (fun p => decide (p.currentQuantity < 0))
      | some pct =>
          let thr := quantileList (a.inventory.map (·.currentQuantity)) (pct / 100)
          a.inventory.filter
            (fun p => decide (p.currentQuantity < thr) && decide (p.currentQuantity < 0))
    let srt := List.insertionSort qtyAsc base
    if srt.isEmpty then .ok []
    else if decide (-a.meanQty < -a.medianQty) && decide (-a.medianQty < (0:ℚ)) then
      .ok (srt.map (fun p => ⟨p, shortageLevel a.meanQty a.medianQty p.currentQuantity⟩))
    else .error binsErrMsg

/-- The `get_critical_items` query: positions with quantity at most
`-abs(mean) * multiplier`, ascending by quantity.  Raises `KeyError` on the
empty positions table. -/
def getCriticalItems (a : Analyzer) (mult : ℚ) : Except String (List Position) :=
  if a.inventory.isEmpty then .error keyErrMsg
  else
    .ok (List.insertionSort qtyAsc
      (a.inventory.filter (fun p => decide (p.currentQuantity ≤ -|a.meanQty| * mult))))

/-- The percentile threshold used by `get_abundant_items`:
`self.inventory_df['Current Quantity'].quantile(threshold_percentile / 100)`. -/
def abThr (a : Analyzer) (tp : ℚ) : ℚ :=
  quantileList (a.inventory.map (·.currentQuantity)) (tp / 100)

/-- Bin edge for the abundance `pd.cut`: `none` models `np.inf`. -/
abbrev Edge := Option ℚ

/-- Strict order on bin edges, with `np.inf` above every finite edge. -/
def edgeLTb : Edge → Edge → Bool
  | some x, some y => decide (x < y)
  | some _, none => true
  | none, _ => false

/-- Test that a list of bin edges increases strictly (the validity condition
of `pd.cut`). -/
def strictlyInc : List Edge → Bool
  | [] => true
  | [_] => true
  | x :: y :: t => edgeLTb x y && strictlyInc (y :: t)

/-- Membership of a value in a right-closed interval `(lo, hi]` of edges. -/
def inIntervalOC (lo hi : Edge) (v : ℚ) : Bool :=
  (match lo with
   | some x => decide (x < v)
   | none => true) &&
  (match hi with
   | some y => decide (v ≤ y)
   | none => true)

/-- Membership of a value in the closed first interval `[lo, hi]`
(`include_lowest=True`). -/
def inIntervalCC (lo hi : Edge) (v : ℚ) : Bool :=
  (match lo with
   | some x => decide (x ≤ v)
   | none => true) &&
  (match hi with
   | some y => decide (v ≤ y)
   | none => true)

/-- Label search over the later, left-open intervals of a `pd.cut`. -/
def cutGo : List Edge → List String → ℚ → Option String
  | lo :: hi :: rest, lab :: labs, v =>
      if inIntervalOC lo hi v then some lab else cutGo (hi :: rest) labs v
  | _, _, _ => none

/-- Label assigned by `pd.cut(..., include_lowest=True)`: the first interval
is closed, later ones are left-open right-closed; a value outside every
interval gets `none` (NaN). -/
def cutLevel (edges : List Edge) (labels : List String) (v : ℚ) : Option String :=
  match edges, labels with
  | lo :: hi :: rest, lab :: labs =>
      if inIntervalCC lo hi v then some lab else cutGo (hi :: rest) labs v
  | _, _ => none

/-- The fallback categorisation of `get_abundant_items`, used when the bin
list degenerates or `pd.cut` raises. -/
def abundanceFallback (a : Analyzer) (q : ℚ) : String :=
  if a.meanQty * 3 < q then "Very High"
  else if a.medianQty * 2 < q then "High"
  else "Moderate"

/-- An abundance record: the position together with its `Abundance Level`
(`none` models a NaN label from `pd.cut`). -/
structure AbundantItem where
  pos : Position
  level : Option String
deriving DecidableEq

/-- Dynamic bin construction and labelling of `get_abundant_items` (lines
152-180 of `data_processor.py`): 'bins' are built from the percentile
threshold, 2x median, 3x mean and max+1 (the maximum over the abundant
selection, the same whether read before or after sorting it),
deduplicated strictly above the threshold and capped by `np.inf`; the
labels slice is `['Moderate', 'High', 'Very High'][:len(bins)-1]`.
`pd.cut` failures (edges not strictly increasing, label/interval count
mismatch) are caught by the `try/except` and fall back to the direct
comparison rule, as does the degenerate `len(bins) < 3` case. -/
def abundanceLvl (a : Analyzer) (tp : ℚ) (p : Position) : Option String :=
  let threshold := abThr a tp
  let abundant := a.inventory.filter (fun q => decide (threshold < q.currentQuantity))
  let maxQty := ((abundant.map (·.currentQuantity)).max?).getD 0
  let bin1 := threshold
  let bin2 := if 0 < a.medianQty then max bin1 (a.medianQty * 2) else bin1 * 2
  let bin3 := if 0 < a.meanQty then max bin2 (a.meanQty * 3) else bin2 * 2
  let bins0 := List.insertionSort (· ≤ ·) [bin1, bin2, bin3, maxQty + 1]
  let bins : List Edge :=
    some threshold :: ((bins0.filter (fun b => decide (threshold < b))).map some ++ [none])
  let labels := ["Moderate", "High", "Very High"].take (bins.length - 1)
  if bins.length < 3 then some (abundanceFallback a p.currentQuantity)
  else if strictlyInc (bins.take 4) && (labels.length == (bins.take 4).length - 1) then
    cutLevel (bins.take 4) labels p.currentQuantity
  else some (abundanceFallback a p.currentQuantity)

/-- The `get_abundant_items` query: positions with quantity strictly above
the percentile threshold, sorted descending by quantity, each labelled by
`abundanceLvl`.  An empty selection returns `[]`; the empty positions
table raises `KeyError`. -/
def getAbundantItems (a : Analyzer) (tp : ℚ) : Except String (List AbundantItem) :=
  if a.inventory.isEmpty then .error keyErrMsg
  else
    let abundant := a.inventory.filter (fun p => decide (abThr a tp < p.currentQuantity))
    if abundant.isEmpty then .ok []
    else .ok ((List.insertionSort qtyDesc abundant).map (fun p => ⟨p, abundanceLvl a tp p⟩))

/-- Worker for `materialsOf`, carrying the set of materials already seen. -/
def materialsGo (seen : List String) : List Position → List String
  | [] => []
  | p :: ps =>
      if p.material ∈ seen then materialsGo seen ps
      else p.material :: materialsGo (p.material :: seen) ps

/-- Materials of the positions table in first-occurrence order (iteration
order of the `defaultdict(list)` keys in the recommendation queries). -/
def materialsOf (l : List Position) : List String := materialsGo [] l

/-- Order in which Python's stable `sorted(..., reverse=True)` leaves two
records whose sort key is a tuple of flag components (descending) followed
by a negated rational component: higher rank first, and inside one rank the
negated component descending, i.e. the rational itself ascending. -/
@[reducible] def rankRel {α : Type} (rank : α → ℕ) (val : α → ℚ) (x y : α) : Prop :=
  rank y < rank x ∨ (rank x = rank y ∧ val x ≤ val y)

instance {α : Type} (rank : α → ℕ) (val : α → ℚ) :
    DecidableRel (rankRel rank val) := fun x y =>
  decidable_of_iff (rank y < rank x ∨ (rank x = rank y ∧ val x ≤ val y)) Iff.rfl

instance {α : Type} (rank : α → ℕ) (val : α → ℚ) :
    IsTotal α (rankRel rank val) := by
  constructor
  intro a b
  rcases Nat.lt_trichotomy (rank a) (rank b) with h | h | h
  · exact Or.inr (Or.inl h)
  · rcases le_total (val a) (val b) with hv | hv
    · exact Or.inl (Or.inr ⟨h, hv⟩)
    · exact Or.inr (Or.inr ⟨h.symm, hv⟩)
  · exact Or.inl (Or.inl h)

instance {α : Type} (rank : α → ℕ) (val : α → ℚ) :
    IsTrans α (rankRel rank val) := by
  constructor
  intro a b c hab hbc
  rcases hab with h | ⟨he, hv⟩
  · rcases hbc with h2 | ⟨he2, _⟩
    · exact Or.inl (lt_trans h2 h)
    · exact Or.inl (he2 ▸ h)
  · rcases hbc with h2 | ⟨he2, hv2⟩
    · exact Or.inl (he ▸ h2)
    · exact Or.inr ⟨he.trans he2, le_trans hv hv2⟩

/-- A record of `get_shipping_recommendations`. -/
structure ShipRec where
  material : String
  materialDescription : String
  fromSite : String
  toSite : String
  recommendedQuantity : ℚ
  priority : String
deriving DecidableEq

/-- The record built for one surplus/shortage pair in
`get_shipping_recommendations` (lines 215-222 of `data_processor.py`). -/
def shipRecOf (a : Analyzer) (s sh : Position) : ShipRec :=
  { material := s.material
    materialDescription := s.materialDescription
    fromSite := s.site
    toSite := sh.site
    recommendedQuantity :=
      round2 (min |s.currentQuantity - a.medianQty| |sh.currentQuantity|)
    priority := if sh.currentQuantity < -a.meanQty then "High" else "Medium" }

/-- Recommendations generated for one material by
`get_shipping_recommendations`: skip materials present at fewer than two
positions, pair each surplus position (quantity above the median) with each
shortage position (negative quantity), and keep the pair when the transfer
quantity is positive. -/
def shipRecsFor (a : Analyzer) (m : String) : List ShipRec :=
  let entries := a.inventory.filter (fun p => p.material == m)
  if entries.length < 2 then []
  else
    let surplus := entries.filter (fun p => decide (a.medianQty < p.currentQuantity))
    let shortage := entries.filter (fun p => decide (p.currentQuantity < 0))
    surplus.flatMap (fun s =>
      shortage.filterMap (fun sh =>
        if 0 < min |s.currentQuantity - a.medianQty| |sh.currentQuantity| then
          some (shipRecOf a s sh)
        else none))

/-- Sort rank of a shipping recommendation: the boolean sort key component
`x['Priority'] == 'High'`. -/
def shipRank (r : ShipRec) : ℕ := if r.priority = "High" then 1 else 0

/-- Order produced by
`sorted(recommendations, key=lambda x: (x['Priority'] == 'High',
-x['Recommended Quantity']), reverse=True)`: note that reversing the
negated quantity leaves the quantity itself ascending within one priority. -/
abbrev shipRel : ShipRec → ShipRec → Prop :=
  rankRel shipRank (fun r => r.recommendedQuantity)

/-- The `get_shipping_recommendations` query. -/
def getShippingRecommendations (a : Analyzer) : List ShipRec :=
  List.insertionSort shipRel ((materialsOf a.inventory).flatMap (shipRecsFor a))

/-- A record of `get_movement_recommendations`. -/
structure MoveRec where
  material : String
  materialDescription : String
  fromSite : String
  fromStorageLocation : String
  toSite : String
  toStorageLocation : String
  availableQty : ℚ
  requiredQty : ℚ
  recommendedQuantity : ℚ
  estimatedValue : ℚ
  priority : String
  impact : String
deriving DecidableEq

/-- The record built for one surplus/shortage pair in
`get_movement_recommendations` (lines 398-425 of `data_processor.py`). -/
def moveRecOf (a : Analyzer) (s sh : Position) : MoveRec :=
  let t := min |s.currentQuantity - a.medianQty| |sh.currentQuantity|
  let unitValue :=
    if s.currentQuantity ≠ 0 then |s.totalValue| / |s.currentQuantity| else 0
  let transferValue := t * unitValue
  let urgencyScore :=
    if a.meanQty ≠ 0 then |sh.currentQuantity| / |a.meanQty| else 0
  { material := s.material
    materialDescription := s.materialDescription
    fromSite := s.site
    fromStorageLocation := s.storageLocation
    toSite := sh.site
    toStorageLocation := sh.storageLocation
    availableQty := round2 s.currentQuantity
    requiredQty := round2 |sh.currentQuantity|
    recommendedQuantity := round2 t
    estimatedValue := round2 transferValue
    priority :=
      if 2 < urgencyScore then "Critical"
      else if 1 < urgencyScore then "High" else "Medium"
    impact := if |a.meanQty * unitValue| < transferValue then "High" else "Medium" }

/-- Recommendations generated for one material by
`get_movement_recommendations` (same pairing scheme as the shipping
variant). -/
def moveRecsFor (a : Analyzer) (m : String) : List MoveRec :=
  let entries := a.inventory.filter (fun p => p.material == m)
  if entries.length < 2 then []
  else
    let surplus := entries.filter (fun p => decide (a.medianQty < p.currentQuantity))
    let shortage := entries.filter (fun p => decide (p.currentQuantity < 0))
    surplus.flatMap (fun s =>
      shortage.filterMap (fun sh =>
        if 0 < min |s.currentQuantity - a.medianQty| |sh.currentQuantity| then
          some (moveRecOf a s sh)
        else none))

/-- Sort rank of a movement recommendation, collapsing the two boolean sort
key components `(x['Priority'] == 'Critical', x['Priority'] == 'High')`,
which can never both be true. -/
def moveRank (r : MoveRec) : ℕ :=
  if r.priority = "Critical" then 2 else if r.priority = "High" then 1 else 0

/-- Order produced by `sorted(recommendations, key=lambda x:
(x['Priority'] == 'Critical', x['Priority'] == 'High',
-x['Estimated Value']), reverse=True)`: Critical first, then High, then
Medium, and inside one priority the estimated value ascending (the negation
composed with `reverse=True` cancels). -/
abbrev movRel : MoveRec → MoveRec → Prop :=
  rankRel moveRank (fun r => r.estimatedValue)

/-- The `get_movement_recommendations` query. -/
def getMovementRecommendations (a : Analyzer) : List MoveRec :=
  List.insertionSort movRel ((materialsOf a.inventory).flatMap (moveRecsFor a))

/-- Filter predicate of `get_inactive_stock`: last-active date missing
(`NaT`) or strictly before the cutoff. -/
def inactiveKeep (p : Position) (cutoff : ℤ) : Bool :=
  match p.lastActive with
  | none => true
  | some d => decide (d < cutoff)

/-- Comparison used by `sort_values('Last Active Date', ascending=True)`
with the default `na_position='last'`: dated entries ascending, and every
dated entry before every `NaT` entry. -/
def laLEb : Option ℤ → Option ℤ → Bool
  | none, none => true
  | none, some _ => false
  | some _, none => true
  | some d, some e => decide (d ≤ e)

/-- Propositional form of `laLEb` on positions. -/
def laAsc (p q : Position) : Prop := laLEb p.lastActive q.lastActive = true

instance : DecidableRel laAsc := fun p q =>
  inferInstanceAs (Decidable (laLEb p.lastActive q.lastActive = true))

instance : IsTotal Position laAsc := by
  constructor
  intro a b
  unfold laAsc
  rcases a.lastActive with _ | d <;> rcases b.lastActive with _ | e <;> simp [laLEb]
  exact le_total d e

instance : IsTrans Position laAsc := by
  constructor
  intro a b c hab hbc
  unfold laAsc at *
  rcases ha : a.lastActive with _ | d <;> rcases hb : b.lastActive with _ | e <;>
    rcases hc : c.lastActive with _ | f <;> simp_all [laLEb]
  exact le_trans hab hbc

/-- The `get_inactive_stock` query.  On the empty positions table the
explicit `'Last Active' not in columns` guard returns `[]`.  Otherwise the
`Last Active` strings are re-parsed (the identity at day granularity, with
the `"N/A"` sentinel becoming `NaT`), rows with missing or sufficiently old
last activity are kept, sorted ascending with `NaT` last, and capped at the
limit.  `pd.Timestamp.today()` is passed in explicitly as `today`. -/
def getInactiveStock (a : Analyzer) (days : ℤ) (limit : ℕ) (today : ℤ) :
    List Position :=
  if a.inventory.isEmpty then []
  else
    let cutoff := today - days
    let inactive := a.inventory.filter (fun p => inactiveKeep p cutoff)
    (List.insertionSort laAsc inactive).take limit

/-- The record returned by `get_dashboard_stats`. -/
structure DashboardStats where
  totalItems : ℕ
  totalSites : ℕ
  totalMaterials : ℕ
  negativeItems : ℕ
  positiveItems : ℕ
  totalQuantity : ℚ
  totalValue : ℚ
  avgQuantity : ℚ
  medianQuantity : ℚ
deriving DecidableEq

/-- The `get_dashboard_stats` query.  On the empty positions table the
`self.inventory_df['Site']` access raises `KeyError`. -/
def getDashboardStats (a : Analyzer) : Except String DashboardStats :=
  if a.inventory.isEmpty then .error keyErrMsg
  else .ok
    { totalItems := a.inventory.length
      totalSites := (a.inventory.map (·.site)).dedup.length
      totalMaterials := (a.inventory.map (·.material)).dedup.length
      negativeItems := (a.inventory.filter (fun p => decide (p.currentQuantity < 0))).length
      positiveItems := (a.inventory.filter (fun p => decide (0 < p.currentQuantity))).length
      totalQuantity := round2 ((a.inventory.map (·.currentQuantity)).sum)
      totalValue := round2 ((a.inventory.map (·.totalValue)).sum)
      avgQuantity := round2 a.meanQty
      medianQuantity := round2 a.medianQty }

/-- Shorthand constructor for concrete raw ledger rows used in the
witnesses and counterexamples. -/
def mkRaw (plant sloc mat d : String) (q v : ℚ) (pd : Option ℤ) : RawRow :=
  { plant := some plant, storageLocation := some sloc, material := some mat
    materialDescription := some d, quantity := some q, amount := some v
    postingDate := pd, unitOfEntry := some "EA" }

/-- Concrete ledger of the spec section 8 merge scenario plus one further
position: two transactions on one key (+50 for 500 and -70 for -700) and one
unrelated position. -/
def cRawEx : List RawRow :=
  [mkRaw "A" "L1" "M" "DM" 50 500 none,
   mkRaw "A" "L1" "M" "DM" (-70) (-700) none,
   mkRaw "B" "L1" "N" "DN" 1 1 none]

/-- Concrete five-position ledger: material M sits at three sites (one
surplus of 300, shortages of -50 and -70) and two unrelated tiny positions
fix the statistics at median 50 and mean 85. -/
def cRaw5 : List RawRow :=
  [mkRaw "A" "L" "M" "DM" 300 300 none,
   mkRaw "B" "L" "M" "DM" (-50) 0 none,
   mkRaw "C" "L" "M" "DM" (-70) 0 none,
   mkRaw "A" "L" "X" "DX" 2 0 none,
   mkRaw "A" "L" "Y" "DY" 3 0 none]

/-- Concrete two-position ledger with a sub-cent shortage of -1/1000. -/
def cRawTiny : List RawRow :=
  [mkRaw "A" "L" "M" "DM" 10 10 none,
   mkRaw "B" "L" "M" "DM" (-1/1000) 0 none]

/-- Concrete all-negative three-position ledger (-10, -4 and -1): its 90th
quantity percentile is -1.6, strictly below the -1 position. -/
def cRawPair : List RawRow :=
  [mkRaw "A" "L" "M1" "D1" (-10) 0 none,
   mkRaw "B" "L" "M2" "D2" (-4) 0 none,
   mkRaw "C" "L" "M3" "D3" (-1) 0 none]

/-- Concrete ledger whose two positions have equal absolute quantity, so
median = mean = 5 while a shortage exists. -/
def cRawEqStats : List RawRow :=
  [mkRaw "A" "L" "M1" "D1" (-5) 0 none,
   mkRaw "B" "L" "M2" "D2" 5 0 none]

/-- Concrete ledger with one never-active position and one dated position. -/
def cRawInact : List RawRow :=
  [mkRaw "A" "L" "M1" "D1" 1 0 none,
   mkRaw "B" "L" "M2" "D2" 1 0 (some 100)]

/-- Concrete uniform ledger: every position has quantity 5, so the maximum
equals every percentile of the distribution. -/
def cRawUniform : List RawRow :=
  [mkRaw "A" "L" "M1" "D1" 5 0 none,
   mkRaw "B" "L" "M2" "D2" 5 0 none]

/-- Concrete ledger whose single row has missing Plant and Storage Location
cells. -/
def cRawNan : List RawRow :=
  [{ plant := none, storageLocation := none, material := some "M"
     materialDescription := some "D", quantity := some 1, amount := some 1
     postingDate := none, unitOfEntry := some "EA" }]


/-- Aggregation key of a position record. -/
def keyOfPos (p : Position) : Key :=
  (p.site, p.storageLocation, p.material, p.materialDescription)

/-- Exact sum of the quantities of the ledger rows sharing a key. -/
def keySumQ (df : List Row) (k : Key) : ℚ :=
  ((df.filter (fun r => decide (rowKey r = k))).map qtyOf).sum

/-- Exact sum of the amounts of the ledger rows sharing a key. -/
def keySumV (df : List Row) (k : Key) : ℚ :=
  ((df.filter (fun r => decide (rowKey r = k))).map amtOf).sum

/-- Lookup in the association list modelling the aggregation dict. -/
def lookupAcc : List (Key × InvAcc) → Key → Option InvAcc
  | [], _ => none
  | (k0, a) :: t, k => if k0 = k then some a else lookupAcc t k

theorem lookupAcc_updateGo (inv : List (Key × InvAcc)) (k k2 : Key) (r : Row) :
    lookupAcc (updateGo inv k r) k2 =
      if k2 = k then some (updAcc ((lookupAcc inv k).getD invAcc0) r)
      else lookupAcc inv k2 := by
  induction inv with
  | nil =>
      by_cases h : k2 = k
      · subst h; simp [updateGo, lookupAcc]
      · have h2 : ¬ k = k2 := fun he => h he.symm
        simp [updateGo, lookupAcc, h, h2]
  | cons ka t ih =>
      obtain ⟨k0, a⟩ := ka
      by_cases h1 : k0 = k
      · subst h1
        by_cases h2 : k0 = k2
        · subst h2; simp [updateGo, lookupAcc]
        · have h2b : ¬ k2 = k0 := fun he => h2 he.symm
          simp [updateGo, lookupAcc, h2, h2b]
      · by_cases h2 : k0 = k2
        · subst h2
          simp [updateGo, lookupAcc, h1]
        · have h1b : ¬ k = k0 := fun he => h1 he.symm
          by_cases h3 : k2 = k
          · subst h3
            simp [updateGo, lookupAcc, h1, h2, ih]
          · simp [updateGo, lookupAcc, h1, h2, h3, ih]

theorem lookupAcc_isSome_iff (inv : List (Key × InvAcc)) (k : Key) :
    (lookupAcc inv k).isSome = true ↔ k ∈ inv.map Prod.fst := by
  induction inv with
  | nil => simp [lookupAcc]
  | cons ka t ih =>
      obtain ⟨k0, a⟩ := ka
      by_cases h : k0 = k <;> simp [lookupAcc, h, ih]
      exact fun h2 => absurd h2.symm h

theorem keys_updateGo (inv : List (Key × InvAcc)) (k : Key) (r : Row) :
    (updateGo inv k r).map Prod.fst =
      if k ∈ inv.map Prod.fst then inv.map Prod.fst
      else inv.map Prod.fst ++ [k] := by
  induction inv with
  | nil => simp [updateGo]
  | cons ka t ih =>
      obtain ⟨k0, a⟩ := ka
      by_cases h : k0 = k
      · subst h
        simp [updateGo]
      · have hne : ¬ k = k0 := fun h2 => h h2.symm
        by_cases h2 : k ∈ t.map Prod.fst <;> simp [updateGo, h, ih, h2, hne]

theorem nodup_keys_updateGo (inv : List (Key × InvAcc)) (k : Key) (r : Row)
    (hn : (inv.map Prod.fst).Nodup) : ((updateGo inv k r).map Prod.fst).Nodup := by
  rw [keys_updateGo]
  by_cases h : k ∈ inv.map Prod.fst
  · simpa [h] using hn
  · simp only [h, if_false]
    refine hn.append (List.nodup_singleton k) ?_
    intro x hx hk2
    simp only [List.mem_singleton] at hk2
    subst hk2
    exact h hx

theorem lookupAcc_foldl (rows : List Row) :
    ∀ (inv : List (Key × InvAcc)) (k : Key),
      lookupAcc (rows.foldl stepInv inv) k =
        if k ∈ rows.map rowKey
        then some ((rows.filter (fun r => decide (rowKey r = k))).foldl updAcc
            ((lookupAcc inv k).getD invAcc0))
        else lookupAcc inv k := by
  induction rows with
  | nil => intro inv k; simp
  | cons r rs ih =>
      intro inv k
      have hstep : lookupAcc (stepInv inv r) k =
          if k = rowKey r then some (updAcc ((lookupAcc inv (rowKey r)).getD invAcc0) r)
          else lookupAcc inv k := by
        unfold stepInv
        exact lookupAcc_updateGo inv (rowKey r) k r
      by_cases h1 : rowKey r = k
      · subst h1
        by_cases h2 : rowKey r ∈ rs.map rowKey
        · simp [List.foldl_cons, ih (stepInv inv r), hstep, h2, List.filter_cons]
        · have hfil : rs.filter (fun r2 => decide (rowKey r2 = rowKey r)) = [] := by
            rw [List.filter_eq_nil_iff]
            intro x hx
            simp only [decide_eq_true_eq]
            intro he
            exact h2 (he ▸ List.mem_map_of_mem rowKey hx)
          simp [List.foldl_cons, ih (stepInv inv r), hstep, h2, List.filter_cons, hfil]
      · have h1b : ¬ k = rowKey r := fun h => h1 h.symm
        by_cases h2 : k ∈ rs.map rowKey <;>
          simp [List.foldl_cons, ih (stepInv inv r), hstep, h2, List.filter_cons, h1, h1b]

theorem lookupAcc_buildInv (df : List Row) (k : Key) :
    lookupAcc (buildInv df) k =
      if k ∈ df.map rowKey
      then some ((df.filter (fun r => decide (rowKey r = k))).foldl updAcc invAcc0)
      else none := by
  unfold buildInv
  rw [lookupAcc_foldl df [] k]
  simp [lookupAcc]

theorem nodup_keys_buildInv (df : List Row) :
    ((buildInv df).map Prod.fst).Nodup := by
  unfold buildInv
  generalize hinit : ([] : List (Key × InvAcc)) = init
  have hn : (init.map Prod.fst).Nodup := by simp [← hinit]
  clear hinit
  induction df generalizing init with
  | nil => simpa using hn
  | cons r rs ih => exact ih (stepInv init r) (nodup_keys_updateGo init (rowKey r) r hn)

theorem mem_keys_buildInv (df : List Row) (k : Key) :
    k ∈ (buildInv df).map Prod.fst ↔ k ∈ df.map rowKey := by
  rw [← lookupAcc_isSome_iff, lookupAcc_buildInv]
  by_cases h : k ∈ df.map rowKey <;> simp [h]

theorem lookupAcc_eq_some_of_mem (inv : List (Key × InvAcc))
    (hn : (inv.map Prod.fst).Nodup) (k : Key) (a : InvAcc)
    (h : (k, a) ∈ inv) : lookupAcc inv k = some a := by
  induction inv with
  | nil => simp at h
  | cons ka t ih =>
      obtain ⟨k0, a0⟩ := ka
      simp only [List.map_cons, List.nodup_cons] at hn
      rcases List.mem_cons.mp h with h | h
      · rw [Prod.mk.injEq] at h
        obtain ⟨h1, h2⟩ := h
        subst h1
        subst h2
        simp [lookupAcc]
      · have hk : ¬ k0 = k := by
          intro he
          subst he
          exact hn.1 (List.mem_map_of_mem Prod.fst h)
        simp [lookupAcc, hk, ih hn.2 h]

theorem foldl_updAcc_qty (l : List Row) (b : InvAcc) :
    (l.foldl updAcc b).qty = b.qty + (l.map qtyOf).sum := by
  induction l generalizing b with
  | nil => simp
  | cons r rs ih => simp [ih, updAcc, add_assoc]

theorem foldl_updAcc_value (l : List Row) (b : InvAcc) :
    (l.foldl updAcc b).value = b.value + (l.map amtOf).sum := by
  induction l generalizing b with
  | nil => simp
  | cons r rs ih => simp [ih, updAcc, add_assoc]

theorem keyOfPos_mkPosition (df : List Row) (k : Key) (a : InvAcc) :
    keyOfPos (mkPosition df k a) = k := rfl

theorem map_keyOfPos_processData (df : List Row) :
    (processData df).map keyOfPos = (buildInv df).map Prod.fst := by
  unfold processData
  rw [List.map_map]
  rfl

theorem okList_ok {α : Type} (l : List α) :
    okList (Except.ok l : Except String (List α)) = l := rfl

theorem rhe_nonneg (x : ℚ) (hx : 0 ≤ x) : 0 ≤ rhe x := by
  unfold rhe
  have hf : (0:ℤ) ≤ ⌊x⌋ := Int.floor_nonneg.mpr hx
  split_ifs <;> omega

theorem round2_nonneg (x : ℚ) (hx : 0 ≤ x) : 0 ≤ round2 x := by
  unfold round2
  have h : (0:ℤ) ≤ rhe (x * 100) := rhe_nonneg _ (by positivity)
  have h2 : (0:ℚ) ≤ (rhe (x * 100) : ℚ) := by exact_mod_cast h
  exact div_nonneg h2 (by norm_num)

theorem mem_processData (df : List Row) (p : Position) (h : p ∈ processData df) :
    ∃ k a, (k, a) ∈ buildInv df ∧ p = mkPosition df k a := by
  unfold processData at h
  obtain ⟨⟨k, a⟩, hmem, hp⟩ := List.mem_map.mp h
  exact ⟨k, a, hmem, hp.symm⟩

/-- C1: for every input transaction set, the build step partitions the
transactions by the 4-tuple key (site, storage location, material,
description); each resulting position's Current Quantity is the exact sum
of the quantities of the transactions sharing its key and its Total Value
is the exact sum of their amounts; the positions' keys are pairwise
distinct and are exactly the keys occurring in the ledger, so no
transaction is counted twice or dropped. -/
theorem c1_partition_sums (raw : List RawRow) :
    (∀ p ∈ (build raw).inventory,
        p.currentQuantity = keySumQ (build raw).df (keyOfPos p) ∧
        p.totalValue = keySumV (build raw).df (keyOfPos p)) ∧
    ((build raw).inventory.map keyOfPos).Nodup ∧
    (∀ k : Key, k ∈ (build raw).inventory.map keyOfPos ↔ k ∈ (build raw).df.map rowKey) := by
  have hinv : (build raw).inventory = processData (raw.map loadRow) := rfl
  have hdf : (build raw).df = raw.map loadRow := rfl
  refine ⟨?_, ?_, ?_⟩
  · intro p hp
    rw [hinv] at hp
    obtain ⟨k, a, hmem, rfl⟩ := mem_processData (raw.map loadRow) p hp
    have hl : lookupAcc (buildInv (raw.map loadRow)) k = some a :=
      lookupAcc_eq_some_of_mem _ (nodup_keys_buildInv _) _ _ hmem
    have hk : k ∈ (raw.map loadRow).map rowKey := by
      rw [← mem_keys_buildInv]
      exact List.mem_map_of_mem Prod.fst hmem
    rw [lookupAcc_buildInv, if_pos hk] at hl
    obtain rfl := Option.some.inj hl
    rw [hdf]
    constructor
    · show (((raw.map loadRow).filter _).foldl updAcc invAcc0).qty = _
      rw [foldl_updAcc_qty, keyOfPos_mkPosition]
      simp [invAcc0, keySumQ]
    · show (((raw.map loadRow).filter _).foldl updAcc invAcc0).value = _
      rw [foldl_updAcc_value, keyOfPos_mkPosition]
      simp [invAcc0, keySumV]
  · rw [hinv, map_keyOfPos_processData]
    exact nodup_keys_buildInv _
  · intro k
    rw [hinv, hdf, map_keyOfPos_processData]
    exact mem_keys_buildInv _ k

/-- Witness for C1 on the concrete three-row ledger `cRawEx`: the two
transactions sharing the key merge into one position whose quantity -20
and value -200 are the exact sums over that key. -/
theorem c1_partition_sums_witness :
    (Position.mk "A" "L1" "M" "DM" (-20) (-200) none "EA").currentQuantity =
        keySumQ (build cRawEx).df
          (keyOfPos (Position.mk "A" "L1" "M" "DM" (-20) (-200) none "EA")) ∧
    (Position.mk "A" "L1" "M" "DM" (-20) (-200) none "EA").totalValue =
        keySumV (build cRawEx).df
          (keyOfPos (Position.mk "A" "L1" "M" "DM" (-20) (-200) none "EA")) :=
  (c1_partition_sums cRawEx).1 (Position.mk "A" "L1" "M" "DM" (-20) (-200) none "EA")
    (by decide)

/-- C3 (amended): the identifier columns are cast to strings at load, so a
missing Plant or Storage Location cell yields the string rendering of the
missing marker, which is `"nan"` (not the `"Unknown"`/`"N/A"` sentinels of
the unreachable fallbacks); every position's site and storage location is
the cast string of some raw row's cell, hence always a string and never
null. -/
theorem c3_cast_identifiers (raw : List RawRow) :
    strOfCell none = "nan" ∧
    ∀ p ∈ (build raw).inventory,
      p.site ∈ raw.map (fun r => strOfCell r.plant) ∧
      p.storageLocation ∈ raw.map (fun r => strOfCell r.storageLocation) := by
  refine ⟨rfl, ?_⟩
  intro p hp
  obtain ⟨k, a, hmem, rfl⟩ := mem_processData (raw.map loadRow) p hp
  have hk : k ∈ (raw.map loadRow).map rowKey := by
    rw [← mem_keys_buildInv]
    exact List.mem_map_of_mem Prod.fst hmem
  rw [List.map_map] at hk
  obtain ⟨r0, hr0, hkey⟩ := List.mem_map.mp hk
  constructor
  · refine List.mem_map.mpr ⟨r0, hr0, ?_⟩
    show strOfCell r0.plant = (mkPosition (raw.map loadRow) k a).site
    have h1 : (mkPosition (raw.map loadRow) k a).site = k.1 := rfl
    rw [h1, ← hkey]
    rfl
  · refine List.mem_map.mpr ⟨r0, hr0, ?_⟩
    show strOfCell r0.storageLocation =
      (mkPosition (raw.map loadRow) k a).storageLocation
    have h1 : (mkPosition (raw.map loadRow) k a).storageLocation = k.2.1 := rfl
    rw [h1, ← hkey]
    rfl

/-- Witness for C3 on the concrete one-row ledger `cRawNan` whose Plant and
Storage Location cells are missing: the position's site and storage
location are the cast strings of those missing cells. -/
theorem c3_cast_identifiers_witness :
    (Position.mk "nan" "nan" "M" "D" 1 1 none "EA").site ∈
        cRawNan.map (fun r => strOfCell r.plant) ∧
    (Position.mk "nan" "nan" "M" "D" 1 1 none "EA").storageLocation ∈
        cRawNan.map (fun r => strOfCell r.storageLocation) :=
  (c3_cast_identifiers cRawNan).2 (Position.mk "nan" "nan" "M" "D" 1 1 none "EA")
    (by decide)

/-- Counterexample to C3 as stated: on a ledger whose single row has a
missing Plant and a missing Storage Location, the resulting position
carries site `"nan"` and storage location `"nan"`, not the claimed
`"Unknown"` and `"N/A"` sentinels. -/
theorem c3_counterexample :
    cRawNan.map (fun r => r.plant) = [none] ∧
    cRawNan.map (fun r => r.storageLocation) = [none] ∧
    (build cRawNan).inventory.map (fun p => p.site) = ["nan"] ∧
    (build cRawNan).inventory.map (fun p => p.storageLocation) = ["nan"] ∧
    "nan" ≠ "Unknown" ∧ "nan" ≠ "N/A" := by decide

/-- C2: on an empty ledger the three threshold statistics are indeed set to
zero by the explicit guard in `_calculate_statistics`, but the positions
table built from an empty list has no columns, so `get_dashboard_stats`
(`self.inventory_df['Site']`), `get_shortage_items`, `get_abundant_items`
and `get_critical_items` (`self.inventory_df['Current Quantity']`) all
raise `KeyError` instead of returning zero statistics or empty sequences;
only the queries that never touch a column of the empty frame
(`get_inactive_stock` via its explicit column guard, and the two
recommendation queries, which merely iterate) return empty results. -/
theorem c2_empty_ledger_behaviour :
    (build []).medianQty = 0 ∧ (build []).meanQty = 0 ∧
    getDashboardStats (build []) = .error keyErrMsg ∧
    getShortageItems (build []) none = .error keyErrMsg ∧
    getAbundantItems (build []) 90 = .error keyErrMsg ∧
    getCriticalItems (build []) 2 = .error keyErrMsg ∧
    getInactiveStock (build []) 90 20 0 = [] ∧
    getShippingRecommendations (build []) = [] ∧
    getMovementRecommendations (build []) = [] := by decide

theorem mem_shipRecsFor (a : Analyzer) (m : String) (rec : ShipRec)
    (h : rec ∈ shipRecsFor a m) :
    ∃ s sh : Position, s ∈ a.inventory ∧ sh ∈ a.inventory ∧
      a.medianQty < s.currentQuantity ∧ sh.currentQuantity < 0 ∧
      0 < min |s.currentQuantity - a.medianQty| |sh.currentQuantity| ∧
      rec = shipRecOf a s sh := by
  unfold shipRecsFor at h
  by_cases hlen : (a.inventory.filter (fun p => p.material == m)).length < 2
  · simp [hlen] at h
  · simp only [if_neg hlen] at h
    obtain ⟨s, hs, hrec⟩ := List.mem_flatMap.mp h
    obtain ⟨sh, hsh, hif⟩ := List.mem_filterMap.mp hrec
    have hs2 := List.mem_filter.mp hs
    have hsh2 := List.mem_filter.mp hsh
    have hsInv : s ∈ a.inventory := (List.mem_filter.mp hs2.1).1
    have hshInv : sh ∈ a.inventory := (List.mem_filter.mp hsh2.1).1
    have hsQty : a.medianQty < s.currentQuantity := by
      have := hs2.2
      simpa using this
    have hshQty : sh.currentQuantity < 0 := by
      have := hsh2.2
      simpa using this
    by_cases h0 : 0 < min |s.currentQuantity - a.medianQty| |sh.currentQuantity|
    · rw [if_pos h0] at hif
      exact ⟨s, sh, hsInv, hshInv, hsQty, hshQty, h0, (Option.some.inj hif).symm⟩
    · rw [if_neg h0] at hif
      exact absurd hif (by simp)

theorem mem_moveRecsFor (a : Analyzer) (m : String) (rec : MoveRec)
    (h : rec ∈ moveRecsFor a m) :
    ∃ s sh : Position, s ∈ a.inventory ∧ sh ∈ a.inventory ∧
      a.medianQty < s.currentQuantity ∧ sh.currentQuantity < 0 ∧
      0 < min |s.currentQuantity - a.medianQty| |sh.currentQuantity| ∧
      rec = moveRecOf a s sh := by
  unfold moveRecsFor at h
  by_cases hlen : (a.inventory.filter (fun p => p.material == m)).length < 2
  · simp [hlen] at h
  · simp only [if_neg hlen] at h
    obtain ⟨s, hs, hrec⟩ := List.mem_flatMap.mp h
    obtain ⟨sh, hsh, hif⟩ := List.mem_filterMap.mp hrec
    have hs2 := List.mem_filter.mp hs
    have hsh2 := List.mem_filter.mp hsh
    have hsInv : s ∈ a.inventory := (List.mem_filter.mp hs2.1).1
    have hshInv : sh ∈ a.inventory := (List.mem_filter.mp hsh2.1).1
    have hsQty : a.medianQty < s.currentQuantity := by
      have := hs2.2
      simpa using this
    have hshQty : sh.currentQuantity < 0 := by
      have := hsh2.2
      simpa using this
    by_cases h0 : 0 < min |s.currentQuantity - a.medianQty| |sh.currentQuantity|
    · rw [if_pos h0] at hif
      exact ⟨s, sh, hsInv, hshInv, hsQty, hshQty, h0, (Option.some.inj hif).symm⟩
    · rw [if_neg h0] at hif
      exact absurd hif (by simp)

theorem mem_getShippingRecommendations (a : Analyzer) (rec : ShipRec)
    (h : rec ∈ getShippingRecommendations a) :
    ∃ s sh : Position, s ∈ a.inventory ∧ sh ∈ a.inventory ∧
      a.medianQty < s.currentQuantity ∧ sh.currentQuantity < 0 ∧
      0 < min |s.currentQuantity - a.medianQty| |sh.currentQuantity| ∧
      rec = shipRecOf a s sh := by
  unfold getShippingRecommendations at h
  rw [List.mem_insertionSort] at h
  obtain ⟨m, _, hm⟩ := List.mem_flatMap.mp h
  exact mem_shipRecsFor a m rec hm

theorem mem_getMovementRecommendations (a : Analyzer) (rec : MoveRec)
    (h : rec ∈ getMovementRecommendations a) :
    ∃ s sh : Position, s ∈ a.inventory ∧ sh ∈ a.inventory ∧
      a.medianQty < s.currentQuantity ∧ sh.currentQuantity < 0 ∧
      0 < min |s.currentQuantity - a.medianQty| |sh.currentQuantity| ∧
      rec = moveRecOf a s sh := by
  unfold getMovementRecommendations at h
  rw [List.mem_insertionSort] at h
  obtain ⟨m, _, hm⟩ := List.mem_flatMap.mp h
  exact mem_moveRecsFor a m rec hm

/-- Position of material M at site A in the ledger `cRaw5`. -/
def cPosA : Position := ⟨"A", "L", "M", "DM", 300, 300, none, "EA"⟩

/-- Position of material M at site B in the ledger `cRaw5`. -/
def cPosB : Position := ⟨"B", "L", "M", "DM", -50, 0, none, "EA"⟩

/-- Position of material M at site C in the ledger `cRaw5`. -/
def cPosC : Position := ⟨"C", "L", "M", "DM", -70, 0, none, "EA"⟩

/-- First shipping recommendation produced on the ledger `cRaw5`. -/
def cShipAB : ShipRec := ⟨"M", "DM", "A", "B", 50, "Medium"⟩

/-- C5 (amended): every returned recommendation's Recommended Quantity is
the 2-decimal rounding of the strictly positive transfer amount
`min(surplus - median, abs(shortage))` of its surplus/shortage pair, hence
nonnegative though possibly rounded down to zero; for every pair with
surplus above the median and a negative shortage that amount is positive,
so no pair is dropped by the positivity guard, and the record built for it
carries exactly the rounded amount. -/
theorem c5_transfer_amounts (a : Analyzer) :
    (∀ rec ∈ getShippingRecommendations a, 0 ≤ rec.recommendedQuantity) ∧
    (∀ rec ∈ getMovementRecommendations a, 0 ≤ rec.recommendedQuantity) ∧
    (∀ s sh : Position, a.medianQty < s.currentQuantity → sh.currentQuantity < 0 →
        0 < min (s.currentQuantity - a.medianQty) (-sh.currentQuantity) ∧
        (shipRecOf a s sh).recommendedQuantity =
          round2 (min (s.currentQuantity - a.medianQty) (-sh.currentQuantity)) ∧
        (moveRecOf a s sh).recommendedQuantity =
          round2 (min (s.currentQuantity - a.medianQty) (-sh.currentQuantity))) := by
  refine ⟨?_, ?_, ?_⟩
  · intro rec hrec
    obtain ⟨s, sh, _, _, _, _, _, rfl⟩ := mem_getShippingRecommendations a rec hrec
    show 0 ≤ round2 (min |s.currentQuantity - a.medianQty| |sh.currentQuantity|)
    exact round2_nonneg _ (le_min (abs_nonneg _) (abs_nonneg _))
  · intro rec hrec
    obtain ⟨s, sh, _, _, _, _, _, rfl⟩ := mem_getMovementRecommendations a rec hrec
    show 0 ≤ round2 (min |s.currentQuantity - a.medianQty| |sh.currentQuantity|)
    exact round2_nonneg _ (le_min (abs_nonneg _) (abs_nonneg _))
  · intro s sh hs hsh
    have h1 : |s.currentQuantity - a.medianQty| = s.currentQuantity - a.medianQty :=
      abs_of_pos (by linarith)
    have h2 : |sh.currentQuantity| = -sh.currentQuantity := abs_of_neg hsh
    refine ⟨lt_min (by linarith) (by linarith), ?_, ?_⟩
    · show round2 (min |s.currentQuantity - a.medianQty| |sh.currentQuantity|) = _
      rw [h1, h2]
    · show round2 (min |s.currentQuantity - a.medianQty| |sh.currentQuantity|) = _
      rw [h1, h2]

/-- Witness for C5 on the ledger `cRaw5`: the first shipping
recommendation has nonnegative quantity, and the surplus/shortage pair
(site A, site B) has positive transfer amount with both records carrying
its rounding. -/
theorem c5_transfer_amounts_witness :
    0 ≤ cShipAB.recommendedQuantity ∧
    (0 < min (cPosA.currentQuantity - (build cRaw5).medianQty) (-cPosB.currentQuantity) ∧
     (shipRecOf (build cRaw5) cPosA cPosB).recommendedQuantity =
       round2 (min (cPosA.currentQuantity - (build cRaw5).medianQty)
         (-cPosB.currentQuantity)) ∧
     (moveRecOf (build cRaw5) cPosA cPosB).recommendedQuantity =
       round2 (min (cPosA.currentQuantity - (build cRaw5).medianQty)
         (-cPosB.currentQuantity))) :=
  ⟨(c5_transfer_amounts (build cRaw5)).1 cShipAB (by decide),
   (c5_transfer_amounts (build cRaw5)).2.2 cPosA cPosB (by decide) (by decide)⟩

/-- Counterexample to C5 as stated: on the ledger `cRawTiny`, whose
shortage position holds -1/1000 units, both recommendation queries return
exactly one recommendation whose Recommended Quantity is `round(0.001, 2)
= 0`, which is not strictly positive. -/
theorem c5_counterexample :
    (getShippingRecommendations (build cRawTiny)).map
        (fun r => r.recommendedQuantity) = [0] ∧
    (getMovementRecommendations (build cRawTiny)).map
        (fun r => r.recommendedQuantity) = [0] ∧
    ¬ (0 < (0:ℚ)) := by decide

/-- C6 (amended): the movement recommendations come ordered with all
Critical-priority records first, then High, then Medium, and within one
priority rank the estimated value is ascending, because the sort key
negates the value and `reverse=True` negates it again; likewise the
shipping variant puts High-priority records first and orders each rank by
ascending recommended quantity. -/
theorem c6_ordering (a : Analyzer) :
    List.Pairwise
      (fun x y => moveRank y ≤ moveRank x ∧
        (moveRank x = moveRank y → x.estimatedValue ≤ y.estimatedValue))
      (getMovementRecommendations a) ∧
    List.Pairwise
      (fun x y => shipRank y ≤ shipRank x ∧
        (shipRank x = shipRank y → x.recommendedQuantity ≤ y.recommendedQuantity))
      (getShippingRecommendations a) := by
  constructor
  · unfold getMovementRecommendations
    refine List.Pairwise.imp ?_ (List.sorted_insertionSort movRel _)
    intro x y hxy
    rcases hxy with h | ⟨he, hv⟩
    · exact ⟨le_of_lt h, fun he2 => absurd h (by rw [he2]; exact lt_irrefl _)⟩
    · exact ⟨le_of_eq he.symm, fun _ => hv⟩
  · unfold getShippingRecommendations
    refine List.Pairwise.imp ?_ (List.sorted_insertionSort shipRel _)
    intro x y hxy
    rcases hxy with h | ⟨he, hv⟩
    · exact ⟨le_of_lt h, fun he2 => absurd h (by rw [he2]; exact lt_irrefl _)⟩
    · exact ⟨le_of_eq he.symm, fun _ => hv⟩

/-- Counterexample to C6 as stated: on the ledger `cRaw5` both queries
return two recommendations of equal priority whose value column ascends
(50 before 70), while the claim demands descending order within equal
priority. -/
theorem c6_counterexample :
    (getMovementRecommendations (build cRaw5)).map (fun r => r.priority) =
        ["Medium", "Medium"] ∧
    (getMovementRecommendations (build cRaw5)).map (fun r => r.estimatedValue) =
        [50, 70] ∧
    (getShippingRecommendations (build cRaw5)).map (fun r => r.priority) =
        ["Medium", "Medium"] ∧
    (getShippingRecommendations (build cRaw5)).map (fun r => r.recommendedQuantity) =
        [50, 70] ∧
    (50:ℚ) < 70 := by decide

/-- C4 (amended): on a nonempty positions table the unfiltered shortage
query returns exactly the positions with negative quantity, sorted
ascending, each labelled Critical when quantity is at most -mean, High when
at most -median (and above -mean), else Moderate -- provided either the
shortage set is empty (empty result, no error) or the statistics satisfy
`0 < median < mean`, which is exactly when the severity bins
`[-inf, -mean, -median, 0]` increase strictly; otherwise the uncaught
`pd.cut` raises `ValueError` (see the counterexample). -/
theorem c4_shortage_query (a : Analyzer) (hne : a.inventory ≠ []) :
    ((a.inventory.filter (fun p => decide (p.currentQuantity < 0))) = [] →
        getShortageItems a none = .ok []) ∧
    (a.medianQty < a.meanQty → 0 < a.medianQty →
      isOkE (getShortageItems a none) = true ∧
      ((okList (getShortageItems a none)).map (fun it => it.pos)).Perm
        (a.inventory.filter (fun p => decide (p.currentQuantity < 0))) ∧
      List.Sorted qtyAsc ((okList (getShortageItems a none)).map (fun it => it.pos)) ∧
      (∀ it ∈ okList (getShortageItems a none),
        it.level =
          if it.pos.currentQuantity ≤ -a.meanQty then "Critical"
          else if it.pos.currentQuantity ≤ -a.medianQty then "High"
          else "Moderate")) := by
  have hempty : a.inventory.isEmpty = false := by
    simpa [List.isEmpty_iff] using hne
  have hq : getShortageItems a none =
      (if (List.insertionSort qtyAsc
            (a.inventory.filter (fun p => decide (p.currentQuantity < 0)))).isEmpty
       then .ok []
       else if decide (-a.meanQty < -a.medianQty) && decide (-a.medianQty < (0:ℚ)) then
         .ok ((List.insertionSort qtyAsc
            (a.inventory.filter (fun p => decide (p.currentQuantity < 0)))).map
              (fun p => ⟨p, shortageLevel a.meanQty a.medianQty p.currentQuantity⟩))
       else .error binsErrMsg) := by
    unfold getShortageItems
    simp [hempty]
  constructor
  · intro hfil
    rw [hq, hfil]
    simp
  · intro hmm hmd
    have hcond : (decide (-a.meanQty < -a.medianQty) && decide (-a.medianQty < (0:ℚ))) = true := by
      simp only [Bool.and_eq_true, decide_eq_true_eq]
      constructor <;> linarith
    by_cases hfe : (List.insertionSort qtyAsc
        (a.inventory.filter (fun p => decide (p.currentQuantity < 0)))).isEmpty
    · have hsrt : List.insertionSort qtyAsc
          (a.inventory.filter (fun p => decide (p.currentQuantity < 0))) = [] :=
        List.isEmpty_iff.mp hfe
      have hfil : a.inventory.filter (fun p => decide (p.currentQuantity < 0)) = [] := by
        have hperm := List.perm_insertionSort qtyAsc
          (a.inventory.filter (fun p => decide (p.currentQuantity < 0)))
        rw [hsrt] at hperm
        exact hperm.symm.eq_nil
      rw [hq, hfil]
      simp [isOkE, okList, hfil]
    · rw [hq, if_neg (by simpa using hfe), if_pos hcond]
      have hmap : ((List.insertionSort qtyAsc
            (a.inventory.filter (fun p => decide (p.currentQuantity < 0)))).map
              (fun p => (⟨p, shortageLevel a.meanQty a.medianQty p.currentQuantity⟩ :
                ShortageItem))).map (fun it => it.pos) =
          List.insertionSort qtyAsc
            (a.inventory.filter (fun p => decide (p.currentQuantity < 0))) := by
        rw [List.map_map]
        exact List.map_id'' (fun _ => rfl) _
      refine ⟨rfl, ?_, ?_, ?_⟩
      · rw [okList_ok, hmap]
        exact List.perm_insertionSort qtyAsc _
      · rw [okList_ok, hmap]
        exact List.sorted_insertionSort qtyAsc _
      · intro it hit
        rw [okList_ok] at hit
        obtain ⟨p, hp, rfl⟩ := List.mem_map.mp hit
        have hp2 : p ∈ a.inventory.filter (fun p => decide (p.currentQuantity < 0)) := by
          rw [← List.mem_insertionSort (r := qtyAsc)]
          exact hp
        have hq0 : p.currentQuantity < 0 := by
          have := (List.mem_filter.mp hp2).2
          simpa using this
        show shortageLevel a.meanQty a.medianQty p.currentQuantity = _
        unfold shortageLevel
        split_ifs <;> first | rfl | linarith

/-- Witness for C4 on the ledger `cRaw5` (median 50 < mean 85, both
positive): the query succeeds, its records are the negative positions
sorted ascending, and the -70 shortage is labelled High. -/
theorem c4_shortage_query_witness :
    isOkE (getShortageItems (build cRaw5) none) = true ∧
    ((okList (getShortageItems (build cRaw5) none)).map (fun it => it.pos)).Perm
      ((build cRaw5).inventory.filter (fun p => decide (p.currentQuantity < 0))) ∧
    List.Sorted qtyAsc
      ((okList (getShortageItems (build cRaw5) none)).map (fun it => it.pos)) ∧
    (ShortageItem.mk cPosC "High").level =
      (if cPosC.currentQuantity ≤ -(build cRaw5).meanQty then "Critical"
       else if cPosC.currentQuantity ≤ -(build cRaw5).medianQty then "High"
       else "Moderate") := by
  have h := (c4_shortage_query (build cRaw5) (by decide)).2 (by decide) (by decide)
  exact ⟨h.1, h.2.1, h.2.2.1, h.2.2.2 (ShortageItem.mk cPosC "High") (by decide)⟩

/-- Counterexample to C4 as stated: the ledger `cRawEqStats` has a
nonempty shortage set, but its statistics satisfy median = mean = 5, so
the severity bins are not strictly increasing and the unfiltered shortage
query raises `ValueError` instead of returning the labelled shortage
list. -/
theorem c4_counterexample :
    (build cRawEqStats).inventory.filter (fun p => decide (p.currentQuantity < 0)) ≠ [] ∧
    getShortageItems (build cRawEqStats) none = .error binsErrMsg := by decide

/-- C8: on a nonempty positions table the abundant-items query succeeds and
returns exactly the positions whose quantity is strictly greater than the
percentile threshold of the quantity distribution, sorted descending by
quantity; an empty abundant selection (in particular a uniform
distribution, where the maximum equals the percentile value and the strict
comparison excludes it) yields the empty result without error. -/
theorem c8_abundant_query (a : Analyzer) (tp : ℚ) (hne : a.inventory ≠ []) :
    isOkE (getAbundantItems a tp) = true ∧
    ((okList (getAbundantItems a tp)).map (fun it => it.pos)).Perm
      (a.inventory.filter (fun p => decide (abThr a tp < p.currentQuantity))) ∧
    List.Sorted qtyDesc ((okList (getAbundantItems a tp)).map (fun it => it.pos)) ∧
    (a.inventory.filter (fun p => decide (abThr a tp < p.currentQuantity)) = [] →
        getAbundantItems a tp = .ok []) := by
  have hempty : a.inventory.isEmpty = false := by
    simpa [List.isEmpty_iff] using hne
  by_cases hfe : (a.inventory.filter
      (fun p => decide (abThr a tp < p.currentQuantity))).isEmpty
  · have hfil := List.isEmpty_iff.mp hfe
    have hq : getAbundantItems a tp = .ok [] := by
      unfold getAbundantItems
      simp [hempty, hfe]
    rw [hq]
    exact ⟨rfl, by simp [okList, hfil], by simp [okList], fun _ => rfl⟩
  · have hq : getAbundantItems a tp = .ok ((List.insertionSort qtyDesc
        (a.inventory.filter (fun p => decide (abThr a tp < p.currentQuantity)))).map
          (fun p => ⟨p, abundanceLvl a tp p⟩)) := by
      unfold getAbundantItems
      simp [hempty, hfe]
    rw [hq]
    have hmap : ((List.insertionSort qtyDesc
          (a.inventory.filter (fun p => decide (abThr a tp < p.currentQuantity)))).map
            (fun p => (⟨p, abundanceLvl a tp p⟩ : AbundantItem))).map (fun it => it.pos) =
        List.insertionSort qtyDesc
          (a.inventory.filter (fun p => decide (abThr a tp < p.currentQuantity))) := by
      rw [List.map_map]
      exact List.map_id'' (fun _ => rfl) _
    refine ⟨rfl, ?_, ?_, ?_⟩
    · rw [okList_ok, hmap]
      exact List.perm_insertionSort qtyDesc _
    · rw [okList_ok, hmap]
      exact List.sorted_insertionSort qtyDesc _
    · intro hfil
      exact absurd (by rw [hfil]; rfl) hfe

/-- Witness for C8 on the uniform ledger `cRawUniform` (both positions
hold 5 units, so the 90th percentile is 5 and the strict comparison makes
the abundant selection empty). -/
theorem c8_abundant_query_witness :
    isOkE (getAbundantItems (build cRawUniform) 90) = true ∧
    ((okList (getAbundantItems (build cRawUniform) 90)).map (fun it => it.pos)).Perm
      ((build cRawUniform).inventory.filter
        (fun p => decide (abThr (build cRawUniform) 90 < p.currentQuantity))) ∧
    List.Sorted qtyDesc
      ((okList (getAbundantItems (build cRawUniform) 90)).map (fun it => it.pos)) ∧
    ((build cRawUniform).inventory.filter
        (fun p => decide (abThr (build cRawUniform) 90 < p.currentQuantity)) = [] →
      getAbundantItems (build cRawUniform) 90 = .ok []) :=
  c8_abundant_query (build cRawUniform) 90 (by decide)

theorem okList_shortage_subset (a : Analyzer) (tp : Option ℚ) :
    ∀ it ∈ okList (getShortageItems a tp),
      it.pos ∈ a.inventory ∧ it.pos.currentQuantity < 0 := by
  intro it h
  unfold getShortageItems at h
  by_cases he : a.inventory.isEmpty
  · rw [if_pos he] at h
    simp [okList] at h
  · rw [if_neg he] at h
    rcases tp with _ | pct
    · simp only [] at h
      by_cases hs : (List.insertionSort qtyAsc
          (a.inventory.filter (fun p => decide (p.currentQuantity < 0)))).isEmpty
      · rw [if_pos hs] at h
        simp [okList] at h
      · rw [if_neg hs] at h
        by_cases hc : (decide (-a.meanQty < -a.medianQty) &&
            decide (-a.medianQty < (0:ℚ))) = true
        · rw [if_pos hc, okList_ok] at h
          obtain ⟨p, hp, rfl⟩ := List.mem_map.mp h
          rw [List.mem_insertionSort] at hp
          have h2 := List.mem_filter.mp hp
          exact ⟨h2.1, by simpa using h2.2⟩
        · rw [if_neg hc] at h
          simp [okList] at h
    · simp only [] at h
      by_cases hs : (List.insertionSort qtyAsc (a.inventory.filter
          (fun p => decide (p.currentQuantity <
              quantileList (a.inventory.map (·.currentQuantity)) (pct / 100)) &&
            decide (p.currentQuantity < 0)))).isEmpty
      · rw [if_pos hs] at h
        simp [okList] at h
      · rw [if_neg hs] at h
        by_cases hc : (decide (-a.meanQty < -a.medianQty) &&
            decide (-a.medianQty < (0:ℚ))) = true
        · rw [if_pos hc, okList_ok] at h
          obtain ⟨p, hp, rfl⟩ := List.mem_map.mp h
          rw [List.mem_insertionSort] at hp
          have h2 := List.mem_filter.mp hp
          refine ⟨h2.1, ?_⟩
          have h3 := h2.2
          simp only [Bool.and_eq_true, decide_eq_true_eq] at h3
          exact h3.2
        · rw [if_neg hc] at h
          simp [okList] at h

theorem okList_critical_subset (a : Analyzer) (mult : ℚ) :
    ∀ p ∈ okList (getCriticalItems a mult),
      p ∈ a.inventory ∧ p.currentQuantity ≤ -|a.meanQty| * mult := by
  intro p h
  unfold getCriticalItems at h
  by_cases he : a.inventory.isEmpty
  · rw [if_pos he] at h
    simp [okList] at h
  · rw [if_neg he, okList_ok] at h
    rw [List.mem_insertionSort] at h
    have h2 := List.mem_filter.mp h
    exact ⟨h2.1, by simpa using h2.2⟩

theorem okList_abundant_subset (a : Analyzer) (ap : ℚ) :
    ∀ it ∈ okList (getAbundantItems a ap),
      it.pos ∈ a.inventory ∧ abThr a ap < it.pos.currentQuantity := by
  intro it h
  unfold getAbundantItems at h
  by_cases he : a.inventory.isEmpty
  · rw [if_pos he] at h
    simp [okList] at h
  · rw [if_neg he] at h
    simp only [] at h
    by_cases hf : (a.inventory.filter
        (fun p => decide (abThr a ap < p.currentQuantity))).isEmpty
    · rw [if_pos hf] at h
      simp [okList] at h
    · rw [if_neg hf, okList_ok] at h
      obtain ⟨p, hp, rfl⟩ := List.mem_map.mp h
      rw [List.mem_insertionSort] at hp
      have h2 := List.mem_filter.mp hp
      exact ⟨h2.1, by simpa using h2.2⟩

/-- C7 (amended): the shortage, critical and abundant result sets are
always subsets of the positions table selected by their stated quantity
predicates; the shortage and abundant results are disjoint whenever the
abundant percentile threshold is nonnegative (on an all-negative inventory
the percentile itself is negative and the two queries can overlap -- see
the counterexample). -/
theorem c7_subsets_disjoint (a : Analyzer) (tp : Option ℚ) (mult ap : ℚ) :
    (∀ it ∈ okList (getShortageItems a tp),
        it.pos ∈ a.inventory ∧ it.pos.currentQuantity < 0) ∧
    (∀ p ∈ okList (getCriticalItems a mult),
        p ∈ a.inventory ∧ p.currentQuantity ≤ -|a.meanQty| * mult) ∧
    (∀ it ∈ okList (getAbundantItems a ap),
        it.pos ∈ a.inventory ∧ abThr a ap < it.pos.currentQuantity) ∧
    (0 ≤ abThr a ap →
      ∀ x ∈ (okList (getShortageItems a tp)).map (fun it => it.pos),
        x ∉ (okList (getAbundantItems a ap)).map (fun it => it.pos)) := by
  refine ⟨okList_shortage_subset a tp, okList_critical_subset a mult,
    okList_abundant_subset a ap, ?_⟩
  intro hthr x hx hx2
  obtain ⟨it, hit, rfl⟩ := List.mem_map.mp hx
  obtain ⟨it2, hit2, heq⟩ := List.mem_map.mp hx2
  have h1 := (okList_shortage_subset a tp it hit).2
  have h2 := (okList_abundant_subset a ap it2 hit2).2
  rw [heq] at h2
  linarith

/-- Witness for C7 on the ledger `cRaw5` with an unfiltered shortage
query, critical multiplier 1/2 and abundant percentile 90. -/
theorem c7_subsets_disjoint_witness :
    ((ShortageItem.mk cPosC "High").pos ∈ (build cRaw5).inventory ∧
      (ShortageItem.mk cPosC "High").pos.currentQuantity < 0) ∧
    (cPosC ∈ (build cRaw5).inventory ∧
      cPosC.currentQuantity ≤ -|(build cRaw5).meanQty| * (1/2)) ∧
    ((AbundantItem.mk cPosA (some "High")).pos ∈ (build cRaw5).inventory ∧
      abThr (build cRaw5) 90 < (AbundantItem.mk cPosA (some "High")).pos.currentQuantity) ∧
    cPosC ∉ (okList (getAbundantItems (build cRaw5) 90)).map (fun it => it.pos) := by
  have h := c7_subsets_disjoint (build cRaw5) none (1/2) 90
  exact ⟨h.1 _ (by decide), h.2.1 cPosC (by decide), h.2.2.1 _ (by decide),
    h.2.2.2 (by decide) cPosC (by decide)⟩

/-- Position of material M3 (quantity -1) in the ledger `cRawPair`. -/
def cPosNeg1 : Position := ⟨"C", "L", "M3", "D3", -1, 0, none, "EA"⟩

/-- Counterexample to C7 as stated: on the all-negative ledger `cRawPair`
the 90th quantity percentile is -8/5, so the -1 position is returned both
by the unfiltered shortage query and by the abundant query -- the two
result sets are not disjoint. -/
theorem c7_counterexample :
    cPosNeg1 ∈ (okList (getShortageItems (build cRawPair) none)).map (fun it => it.pos) ∧
    cPosNeg1 ∈ (okList (getAbundantItems (build cRawPair) 90)).map (fun it => it.pos) := by
  decide

/-- C9 (amended): the inactive-stock query returns only positions whose
last-active date is null or strictly older than today minus the day
window, capped at the limit, sorted with the dated positions first in
ascending (oldest-first) order and all null/unknown dates AFTER them (the
pandas sort places missing values last by default, not first as the claim
states -- see the counterexample); when at most `limit` positions qualify,
every qualifying position is returned. -/
theorem c9_inactive_stock (a : Analyzer) (days : ℤ) (limit : ℕ) (today : ℤ) :
    (getInactiveStock a days limit today).length ≤ limit ∧
    (∀ p ∈ getInactiveStock a days limit today,
        p ∈ a.inventory ∧ inactiveKeep p (today - days) = true) ∧
    List.Pairwise (fun p q : Position =>
        (p.lastActive = none → q.lastActive = none) ∧
        (∀ d e : ℤ, p.lastActive = some d → q.lastActive = some e → d ≤ e))
      (getInactiveStock a days limit today) ∧
    ((a.inventory.filter (fun p => inactiveKeep p (today - days))).length ≤ limit →
      ∀ p ∈ a.inventory, inactiveKeep p (today - days) = true →
        p ∈ getInactiveStock a days limit today) := by
  by_cases he : a.inventory.isEmpty
  · have hz : getInactiveStock a days limit today = [] := by
      unfold getInactiveStock
      simp [he]
    have hinv : a.inventory = [] := List.isEmpty_iff.mp he
    rw [hz]
    refine ⟨by simp, by simp, by simp, ?_⟩
    intro _ p hp
    rw [hinv] at hp
    simp at hp
  · have hq : getInactiveStock a days limit today =
        (List.insertionSort laAsc (a.inventory.filter
          (fun p => inactiveKeep p (today - days)))).take limit := by
      unfold getInactiveStock
      simp [he]
    rw [hq]
    refine ⟨List.length_take_le _ _, ?_, ?_, ?_⟩
    · intro p hp
      have hp2 : p ∈ List.insertionSort laAsc (a.inventory.filter
          (fun p => inactiveKeep p (today - days))) := List.mem_of_mem_take hp
      rw [List.mem_insertionSort] at hp2
      have h2 := List.mem_filter.mp hp2
      exact ⟨h2.1, h2.2⟩
    · have hsorted := List.sorted_insertionSort laAsc
        (a.inventory.filter (fun p => inactiveKeep p (today - days)))
      refine List.Pairwise.imp ?_ (List.Pairwise.sublist (List.take_sublist _ _) hsorted)
      intro p q hpq
      unfold laAsc at hpq
      constructor
      · intro hp
        rcases hq2 : q.lastActive with _ | e
        · rfl
        · rw [hp, hq2] at hpq
          simp [laLEb] at hpq
      · intro d e hd he2
        rw [hd, he2] at hpq
        simpa [laLEb] using hpq
    · intro hlen p hp hkeep
      have hlen2 : (List.insertionSort laAsc (a.inventory.filter
          (fun p => inactiveKeep p (today - days)))).length ≤ limit := by
        rw [List.length_insertionSort]
        exact hlen
      rw [List.take_of_length_le hlen2, List.mem_insertionSort]
      exact List.mem_filter.mpr ⟨hp, hkeep⟩

/-- Position with no activity date in the ledger `cRawInact`. -/
def cPosNullDate : Position := ⟨"A", "L", "M1", "D1", 1, 0, none, "EA"⟩

/-- Position last active on day 100 in the ledger `cRawInact`. -/
def cPosDated : Position := ⟨"B", "L", "M2", "D2", 1, 0, some 100, "EA"⟩

/-- Witness for C9 on the ledger `cRawInact` with a 90-day window, limit
20 and day 1000 as today: both positions qualify and are returned. -/
theorem c9_inactive_stock_witness :
    (getInactiveStock (build cRawInact) 90 20 1000).length ≤ 20 ∧
    (cPosDated ∈ (build cRawInact).inventory ∧
      inactiveKeep cPosDated (1000 - 90) = true) ∧
    cPosNullDate ∈ getInactiveStock (build cRawInact) 90 20 1000 := by
  have h := c9_inactive_stock (build cRawInact) 90 20 1000
  exact ⟨h.1, h.2.1 cPosDated (by decide),
    h.2.2.2 (by decide) cPosNullDate (by decide) (by decide)⟩

/-- Counterexample to C9 as stated: on the ledger `cRawInact` the query
returns the dated position (day 100, well before the cutoff 910) first
and the null-date position last, while the claim says null/unknown dates
come first. -/
theorem c9_counterexample :
    (getInactiveStock (build cRawInact) 90 20 1000).map (fun p => p.lastActive) =
      [some 100, none] ∧
    (100:ℤ) < 1000 - 90 := by decide
